import Mathlib

/-!
Shallow embedding of the optimusPy client (optimusdb_client.py and
batch_operations.py) and proofs about its criteria translation, metadata
update/wait logic, batch import chunking, schema verification and the
delete-all refinement.

Strings are modelled as lists of characters so that splitting and joining
can be reasoned about by induction.  Python dicts (string-keyed, insertion
ordered, last write wins) are modelled as association lists with a
replace-in-place update.
-/

namespace OptimusPy

/-- Character list of a string literal. -/
def cs (s : String) : List Char := s.data

/-! ## Python string splitting: str.split(sep, maxsplit) -/

/-- Break a character list at the first occurrence of a character satisfying
the predicate, returning the part before and the part after; none when no
character matches. -/
def splitFirst (p : Char → Bool) : List Char → Option (List Char × List Char)
  | [] => none
  | c :: rest =>
    if p c then some ([], rest)
    else
      match splitFirst p rest with
      | none => none
      | some (pre, post) => some (c :: pre, post)

/-- Python str.split(sep, maxsplit): split at the first maxsplit occurrences
of the separator.  split always returns at least one part; a string without
the separator is returned whole. -/
def pySplit (sep : Char) : Nat → List Char → List (List Char)
  | 0, s => [s]
  | m + 1, s =>
    match splitFirst (fun c => c = sep) s with
    | none => [s]
    | some (pre, post) => pre :: pySplit sep m post

/-! ## Python numeric literal parsing (int() and float() on strings)

Python int(str) strips surrounding whitespace, allows an optional sign and
then a run of decimal digits with single underscores permitted between
digits.  float(str) additionally accepts a fractional part, an exponent and
the special words inf, infinity and nan (case insensitive, optionally
signed).  Only ASCII input is modelled, which covers every CLI token. -/

/-- ASCII whitespace as stripped by Python str.strip / int / float. -/
def isPySpace (c : Char) : Bool := c.toNat = 32 || (9 ≤ c.toNat && c.toNat ≤ 13)

/-- Strip leading and trailing whitespace. -/
def pyStrip (l : List Char) : List Char :=
  ((l.dropWhile isPySpace).reverse.dropWhile isPySpace).reverse

/-- Accumulator loop for a digit run with single underscores allowed between
digits (Python numeric literal digitpart after its first digit). -/
def parseUIntAux : Nat → List Char → Option Nat
  | acc, [] => some acc
  | acc, c :: rest =>
    if c.isDigit then parseUIntAux (10 * acc + (c.toNat - 48)) rest
    else if c = '_' then
      match rest with
      | [] => none
      | d :: rest2 =>
        if d.isDigit then parseUIntAux (10 * acc + (d.toNat - 48)) rest2 else none
    else none

/-- Parse a Python digitpart: a nonempty digit run with single underscores
allowed strictly between digits. -/
def parseUInt : List Char → Option Nat
  | [] => none
  | c :: rest => if c.isDigit then parseUIntAux (c.toNat - 48) rest else none

/-- Python int(str) on ASCII input: strip, optional sign, digitpart. -/
def pyParseInt (l : List Char) : Option Int :=
  match pyStrip l with
  | '+' :: rest => (parseUInt rest).map (fun n => (n : Int))
  | '-' :: rest => (parseUInt rest).map (fun n => -(n : Int))
  | s => (parseUInt s).map (fun n => (n : Int))

/-- Lower-case an ASCII letter. -/
def lowerC (c : Char) : Char :=
  if 65 ≤ c.toNat && c.toNat ≤ 90 then Char.ofNat (c.toNat + 32) else c

/-- Whether a character list is a valid digitpart. -/
def digitsOK (l : List Char) : Bool := (parseUInt l).isSome

/-- Mantissa of a Python float literal: digitpart, or digitpart . digitpart
with at least one digit present on one side of the dot. -/
def mantissaOK (l : List Char) : Bool :=
  match splitFirst (fun c => c = '.') l with
  | none => digitsOK l
  | some (ip, fp) =>
    if ip.isEmpty then digitsOK fp
    else if fp.isEmpty then digitsOK ip
    else digitsOK ip && digitsOK fp

/-- Drop one optional leading sign. -/
def stripSign : List Char → List Char
  | [] => []
  | c :: rest => if c = '+' || c = '-' then rest else c :: rest

/-- Exponent of a Python float literal: optional sign then digitpart. -/
def expOK (l : List Char) : Bool := digitsOK (stripSign l)

/-- Body of a Python float literal after sign removal: inf, infinity, nan
(case insensitive) or mantissa with optional exponent. -/
def floatBodyOK (l : List Char) : Bool :=
  let low := l.map lowerC
  if low = cs "inf" || low = cs "infinity" || low = cs "nan" then true
  else
    match splitFirst (fun c => c = 'e' || c = 'E') l with
    | none => mantissaOK l
    | some (m, e) => mantissaOK m && expOK e

/-- Whether Python float(str) accepts the string (ASCII input). -/
def pyFloatOK (l : List Char) : Bool := floatBodyOK (stripSign (pyStrip l))

/-! ## Criteria values and Python dicts -/

/-- Value of a parsed criteria entry after opportunistic coercion.  A value
accepted by float() is kept as its source text: IEEE floating point itself is
not modelled, and no claim depends on the numeric value of a float, only on
which coercion branch wins. -/
inductive PyVal where
  | str : List Char → PyVal
  | intv : Int → PyVal
  | floatv : List Char → PyVal
  deriving DecidableEq, Repr

/-- Opportunistic value coercion used for three-part criteria tokens:
try int(value), else float(value), else keep the string. -/
def coerceValue (v : List Char) : PyVal :=
  match pyParseInt v with
  | some n => .intv n
  | none => if pyFloatOK v then .floatv v else .str v

/-- Value stored in a criteria mapping: either a plain string (two-part
token, equality) or a one-entry operator object mapping a dollar-prefixed
operator name to a coerced value (three-part token). -/
inductive CritVal where
  | str : List Char → CritVal
  | opv : List Char → PyVal → CritVal
  deriving DecidableEq, Repr

/-- Lookup in a string-keyed association list modelling a Python dict. -/
def dictGet {α : Type} (d : List (List Char × α)) (k : List Char) : Option α :=
  match d with
  | [] => none
  | (k2, v) :: rest => if k2 = k then some v else dictGet rest k

/-- Python dict item assignment: replace the value in place when the key is
present (keeping insertion order), else append the new pair. -/
def dictSet {α : Type} (d : List (List Char × α)) (k : List Char) (v : α) :
    List (List Char × α) :=
  match d with
  | [] => [(k, v)]
  | (k2, v2) :: rest => if k2 = k then (k, v) :: rest else (k2, v2) :: dictSet rest k v

/-- Python dict.update: fold item assignment over the update pairs in order. -/
def pyDictUpdate {α : Type} (d u : List (List Char × α)) : List (List Char × α) :=
  u.foldl (fun acc kv => dictSet acc kv.1 kv.2) d

/-! ## parse_criteria (optimusdb_client.py, CLI criteria translation)

parse_criteria iterates over the tokens, splits each with
item.split(sep, 2), adds an equality entry for two parts, an operator
entry for three parts, and raises ValueError f-string
"Invalid criteria: item" otherwise; finally it returns the accumulated
dict wrapped in a one-element list, or the empty list when the dict is
empty.  The error is modelled as the offending token itself. -/

/-- Loop body of parse_criteria over the remaining tokens, with the
accumulated criteria dict. -/
def parseCriteriaAux (acc : List (List Char × CritVal)) :
    List (List Char) → Except (List Char) (List (List Char × CritVal))
  | [] => .ok acc
  | item :: rest =>
    match pySplit ':' 2 item with
    | [a, b] => parseCriteriaAux (dictSet acc a (.str b)) rest
    | [f, v, op] => parseCriteriaAux (dictSet acc f (.opv ('$' :: op) (coerceValue v))) rest
    | _ => .error item

/-- parse_criteria from optimusdb_client.py: translate CLI criteria tokens
into the server criteria representation, or fail on the first malformed
token. -/
def parse_criteria (tokens : List (List Char)) :
    Except (List Char) (List (List (List Char × CritVal))) :=
  match parseCriteriaAux [] tokens with
  | .error e => .error e
  | .ok d => .ok (if d.isEmpty then [] else [d])

/-- One-entry map lookup helper: the value of the last pair carrying the key,
used to state the last-write-wins property of criteria accumulation. -/
def lastEntry {α : Type} (ps : List (List Char × α)) (k : List Char) : Option α :=
  dictGet ps.reverse k

/-- Interpretation of one well-formed criteria token as the key/value pair it
contributes, following the same split and branches as parse_criteria; none
for a malformed token. -/
def tokenEntry (t : List Char) : Option (List Char × CritVal) :=
  match pySplit ':' 2 t with
  | [a, b] => some (a, .str b)
  | [f, v, op] => some (f, .opv ('$' :: op) (coerceValue v))
  | _ => none

/-! ## Query response data shape

The data field of a query response is either a list of documents or a single
document; the client normalises it with
data if isinstance(data, list) else [data] if data else [], where a bare
document counts only when truthy (non-empty). -/

/-- Shape of the data field of a server response. -/
inductive RespData (α : Type) where
  | list : List (List (List Char × α)) → RespData α
  | single : List (List Char × α) → RespData α

/-- Normalisation of response data into a list of entries, as done in
wait_for_metadata and update_metadata_fields. -/
def normEntries {α : Type} : RespData α → List (List (List Char × α))
  | .list l => l
  | .single d => if d.isEmpty then [] else [d]

/-! ## wait_for_metadata (optimusdb_client.py)

The polling loop reads the clock before each iteration, queries the metadata
store, returns the first entry when the result is non-empty with a truthy
first entry, else sleeps one poll interval and retries; once the elapsed
time reaches the timeout it returns None.  The clock is modelled by the
sequence of elapsed-time readings at each while-loop check (an arbitrary
linearly ordered type), the polls by the sequence of responses.  The result
carries the number of sleeps performed; the outer Option is fuel exhaustion
of the model, never reached under the fuel hypotheses of the theorems. -/

/-- Truthiness test of one poll: the first entry when entries is non-empty
and its first element is a non-empty document, as in
if entries and entries[0]. -/
def pollFound {α : Type} (r : RespData α) : Option (List (List Char × α)) :=
  match normEntries r with
  | [] => none
  | e :: _ => if e.isEmpty then none else some e

/-- The while loop of wait_for_metadata: fuel-indexed, i counts iterations
(equivalently, sleeps performed so far). -/
def waitLoop {α T : Type} [LinearOrder T]
    (elapsedAt : Nat → T) (polls : Nat → RespData α) (timeout : T) :
    Nat → Nat → Option (Option (List (List Char × α)) × Nat)
  | 0, _ => none
  | fuel + 1, i =>
    if elapsedAt i < timeout then
      match pollFound (polls i) with
      | some e => some (some e, i)
      | none => waitLoop elapsedAt polls timeout fuel (i + 1)
    else some (none, i)

/-- wait_for_metadata from optimusdb_client.py: poll from iteration 0. -/
def wait_for_metadata {α T : Type} [LinearOrder T]
    (elapsedAt : Nat → T) (polls : Nat → RespData α) (timeout : T)
    (fuel : Nat) : Option (Option (List (List Char × α)) × Nat) :=
  waitLoop elapsedAt polls timeout fuel 0

/-! ## update_metadata_fields (optimusdb_client.py)

Fetch the entry by id, raise ValueError when absent, shallow-merge the
updates into the fetched document, stamp updated_at, PUT the merged document
back to the primary store, then best-effort mirror the changes to SQLite via
a generated UPDATE statement whose failure is caught and only logged.
Value type of metadata documents is a parameter; ofStr injects the timestamp
string, strOf is Python str() used when building the SQL statement.  The
outcome records the document PUT to the primary store, the generated SQL
text, whether the mirror write succeeded, and the returned value. -/

/-- Error raised by update_metadata_fields when the entry is absent. -/
inductive UpdErr where
  | notFound : List Char → UpdErr
  deriving DecidableEq, Repr

/-- Single quote character. -/
def sq : Char := Char.ofNat 39

/-- Python value.replace applied to single quotes: double each one. -/
def escapeQuotes (v : List Char) : List Char :=
  (v.map (fun c => if c = sq then [sq, sq] else [c])).flatten

/-- Wrap a SQL literal in single quotes. -/
def quoteSql (v : List Char) : List Char := sq :: (v ++ [sq])

/-- Python sep.join. -/
def joinSep (sep : List Char) : List (List Char) → List Char
  | [] => []
  | [x] => x
  | x :: xs => x ++ (sep ++ joinSep sep xs)

/-- The UPDATE statement built for the SQLite mirror: escaped set clauses
from the updates, an updated_at clause, and a WHERE id clause (the last two
interpolated without escaping, as in the source). -/
def buildUpdateSql {α : Type} (strOf : α → List Char) (updates : List (List Char × α))
    (updatedAt metadata_id : List Char) : List Char :=
  let clauses := updates.map (fun kv => kv.1 ++ cs " = " ++ quoteSql (escapeQuotes (strOf kv.2)))
      ++ [cs "updated_at = " ++ quoteSql updatedAt]
  cs "UPDATE metadata_catalog SET " ++ joinSep (cs ", ") clauses
    ++ cs " WHERE id = " ++ quoteSql metadata_id

/-- Observable outcome of one update_metadata_fields call. -/
structure UpdateOutcome (α : Type) where
  primaryPut : Option (List (List Char × α))
  sqlStmt : Option (List Char)
  sqlOk : Bool
  result : Except UpdErr (List (List Char × α))

/-- update_metadata_fields from optimusdb_client.py.  fetched is the data
field of the lookup response, sqlOutcome the result of the mirror write
(its error is caught and downgraded to a warning). -/
def update_metadata_fields {α : Type} (ofStr : List Char → α) (strOf : α → List Char)
    (metadata_id : List Char) (fetched : RespData α)
    (updates : List (List Char × α)) (now : List Char)
    (sqlOutcome : Except (List Char) Unit) : UpdateOutcome α :=
  match normEntries fetched with
  | [] => ⟨none, none, false, .error (.notFound metadata_id)⟩
  | doc :: _ =>
    if doc.isEmpty then ⟨none, none, false, .error (.notFound metadata_id)⟩
    else
      let merged := dictSet (pyDictUpdate doc updates) (cs "updated_at") (ofStr now)
      let stmt := buildUpdateSql strOf updates now metadata_id
      match sqlOutcome with
      | .ok _ => ⟨some merged, some stmt, true, .ok merged⟩
      | .error _ => ⟨some merged, some stmt, false, .ok merged⟩

/-- Projection of the returned document, for stating claims about the value
update_metadata_fields returns. -/
def okDoc {α : Type} : Except UpdErr (List (List Char × α)) → Option (List (List Char × α))
  | .ok d => some d
  | .error _ => none

/-! ## import_from_json batching (batch_operations.py)

The import loop walks range(0, total, 100), slices documents[i : i + 100]
and calls create on each slice inside a try whose except only logs, so
every slice is attempted whatever the earlier outcomes. -/

/-- Python range(start, stop, step) for a positive step. -/
def pyRangeStep (stop step start : Nat) : List Nat :=
  if h : start < stop ∧ 0 < step then start :: pyRangeStep stop step (start + step) else []
termination_by stop - start
decreasing_by omega

/-- Python list slice documents[i : i + n]. -/
def pySlice {β : Type} (l : List β) (i n : Nat) : List β := (l.drop i).take n

/-- The batch loop of import_from_json: each index yields the slice and the
outcome of its create call; a failing create is caught and the loop
continues. -/
def importLoop {β E R : Type} (docs : List β) (create : List β → Except E R) :
    List Nat → List (List β × Except E R)
  | [] => []
  | i :: rest => (pySlice docs i 100, create (pySlice docs i 100)) :: importLoop docs create rest

/-- import_from_json from batch_operations.py, restricted to its batching
loop: the list of create calls attempted, in order, with their outcomes. -/
def import_from_json {β E R : Type} (docs : List β) (create : List β → Except E R) :
    List (List β × Except E R) :=
  importLoop docs create (pyRangeStep docs.length 100 0)

/-! ## verify_48_columns (optimusdb_client.py) -/

/-- The fixed 48-name reference column list of verify_48_columns. -/
def expected48 : List (List Char) := [
  cs "id", cs "author", cs "metadata_type", cs "component", cs "behaviour",
  cs "relationships", cs "associated_id", cs "name", cs "description", cs "tags",
  cs "status", cs "created_by", cs "created_at", cs "updated_at", cs "related_ids",
  cs "priority", cs "scheduling_info", cs "sla_constraints", cs "ownership_details",
  cs "audit_trail", cs "data_domain", cs "data_classification", cs "geo_location",
  cs "temporal_coverage", cs "data_quality_score", cs "schema_version",
  cs "content_hash", cs "file_format", cs "file_size_bytes", cs "record_count",
  cs "update_frequency", cs "retention_policy", cs "access_control",
  cs "compliance_tags", cs "provenance_chain", cs "processing_status",
  cs "api_endpoint", cs "version", cs "parent_id", cs "expiry_date",
  cs "language", cs "license_type", cs "contact_info", cs "node_count",
  cs "ipfs_cid", cs "source_agent", cs "source_pod", cs "source_ip"]

/-- Report returned by verify_48_columns. -/
structure VerifyResult where
  ok : Bool
  total : Nat
  expected : Nat
  present : List (List Char)
  missing : List (List Char)
  deriving DecidableEq, Repr

/-- verify_48_columns from optimusdb_client.py, as a function of the actual
column-name list fetched from the secondary store. -/
def verify_48_columns (actual : List (List Char)) : VerifyResult :=
  let present := expected48.filter (fun c => decide (c ∈ actual))
  let missing := expected48.filter (fun c => decide (c ∉ actual))
  ⟨missing.length == 0, actual.length, 48, present, missing⟩

/-! ## delete and delete_all (optimusdb_client.py)

delete builds the command payload with method cruddelete, argcnt 1 and the
criteria; it does not put its dstype argument into the payload.  delete_all
delegates to delete with the match-everything regex criterion. -/

/-- Command request produced by delete: method fields plus criteria; the
dstype argument of delete is not part of the request in the source. -/
structure DeleteRequest where
  cmd : List Char
  argcnt : Nat
  criteria : List (List (List Char × CritVal))
  deriving DecidableEq, Repr

/-- delete from optimusdb_client.py as the request it submits. -/
def delete (criteria : List (List (List Char × CritVal))) (dstype : List Char) :
    DeleteRequest :=
  { cmd := cs "cruddelete", argcnt := 1, criteria := criteria }

/-- delete_all from optimusdb_client.py: delegate to delete with the
match-everything regex criterion. -/
def delete_all (dstype : List Char) : DeleteRequest :=
  delete [[(cs "_id", CritVal.opv (cs "$regex") (PyVal.str (cs ".*")))]] dstype

/-! ## Lemmas about splitting -/

theorem splitFirst_eq_none (sep : Char) (s : List Char) (h : sep ∉ s) :
    splitFirst (fun c => c = sep) s = none := by
  induction s with
  | nil => rfl
  | cons c rest ih =>
    simp only [List.mem_cons, not_or] at h
    simp [splitFirst, Ne.symm h.1, ih h.2]

theorem splitFirst_append (sep : Char) (pre post : List Char) (h : sep ∉ pre) :
    splitFirst (fun c => c = sep) (pre ++ sep :: post) = some (pre, post) := by
  induction pre with
  | nil => simp [splitFirst]
  | cons c rest ih =>
    simp only [List.mem_cons, not_or] at h
    simp [splitFirst, Ne.symm h.1, ih h.2]

theorem splitFirst_mem (sep : Char) (s : List Char) (h : sep ∈ s) :
    ∃ pre post, splitFirst (fun c => c = sep) s = some (pre, post) := by
  induction s with
  | nil => cases h
  | cons c rest ih =>
    by_cases hc : c = sep
    · exact ⟨[], rest, by simp [splitFirst, hc]⟩
    · have hmem : sep ∈ rest := by
        rcases List.mem_cons.mp h with h1 | h1
        · exact absurd h1.symm hc
        · exact h1
      obtain ⟨pre, post, heq⟩ := ih hmem
      exact ⟨c :: pre, post, by simp [splitFirst, hc, heq]⟩

theorem pySplit_no_sep (sep : Char) (m : Nat) (s : List Char) (h : sep ∉ s) :
    pySplit sep m s = [s] := by
  cases m with
  | zero => rfl
  | succ m => simp [pySplit, splitFirst_eq_none sep s h]

theorem pySplit_succ_sep (sep : Char) (m : Nat) (pre post : List Char) (h : sep ∉ pre) :
    pySplit sep (m + 1) (pre ++ sep :: post) = pre :: pySplit sep m post := by
  simp [pySplit, splitFirst_append sep pre post h]

theorem pySplit_two (f v : List Char) (hf : ':' ∉ f) (hv : ':' ∉ v) :
    pySplit ':' 2 (f ++ ':' :: v) = [f, v] := by
  rw [show (2 : Nat) = 1 + 1 from rfl, pySplit_succ_sep _ _ _ _ hf,
    pySplit_no_sep _ _ _ hv]

theorem pySplit_three (f v op : List Char) (hf : ':' ∉ f) (hv : ':' ∉ v) :
    pySplit ':' 2 (f ++ ':' :: (v ++ ':' :: op)) = [f, v, op] := by
  rw [show (2 : Nat) = 1 + 1 from rfl, pySplit_succ_sep _ _ _ _ hf,
    show (1 : Nat) = 0 + 1 from rfl, pySplit_succ_sep _ _ _ _ hv]
  rfl

/-! ## C6: two-part tokens translate to string equality -/

/-- C6: for every two-part CLI token built from a colon-free field and a
colon-free value, criteria translation yields exactly the equality mapping
from the field to the value kept as a string, with no numeric coercion. -/
theorem two_part_token_equality (f v : List Char) (hf : ':' ∉ f) (hv : ':' ∉ v) :
    parse_criteria [f ++ ':' :: v] = .ok [[(f, CritVal.str v)]] := by
  simp [parse_criteria, parseCriteriaAux, pySplit_two f v hf hv, dictSet]

/-- Witness for C6 at the token status:ACTIVE. -/
theorem two_part_token_equality_witness :
    parse_criteria [cs "status" ++ ':' :: cs "ACTIVE"] =
      .ok [[(cs "status", CritVal.str (cs "ACTIVE"))]] :=
  two_part_token_equality (cs "status") (cs "ACTIVE") (by decide) (by decide)

/-! ## C5: three-part tokens translate to operator form with coercion -/

/-- C5: for every three-part CLI token built from a colon-free field, a
colon-free value and an operator remainder, translation yields the mapping
from the field to the one-entry operator object keyed by the dollar-prefixed
operator, whose value is the integer parse of the value when int() accepts
it, else the float parse when float() accepts it, else the unchanged
string (first successful parse wins). -/
theorem three_part_token_operator (f v op : List Char) (hf : ':' ∉ f) (hv : ':' ∉ v) :
    parse_criteria [f ++ ':' :: (v ++ ':' :: op)] =
      .ok [[(f, CritVal.opv ('$' :: op) (coerceValue v))]]
    ∧ (∀ n : Int, pyParseInt v = some n → coerceValue v = PyVal.intv n)
    ∧ (pyParseInt v = none → pyFloatOK v = true → coerceValue v = PyVal.floatv v)
    ∧ (pyParseInt v = none → pyFloatOK v = false → coerceValue v = PyVal.str v) := by
  refine ⟨?_, ?_, ?_, ?_⟩
  · simp [parse_criteria, parseCriteriaAux, pySplit_three f v op hf hv, dictSet]
  · intro n h; simp [coerceValue, h]
  · intro h1 h2; simp [coerceValue, h1, h2]
  · intro h1 h2; simp [coerceValue, h1, h2]

/-- Witness for C5 at the token size:10:gt, whose value coerces to the
integer 10. -/
theorem three_part_token_operator_witness :
    (parse_criteria [cs "size" ++ ':' :: (cs "10" ++ ':' :: cs "gt")] =
      .ok [[(cs "size", CritVal.opv ('$' :: cs "gt") (coerceValue (cs "10")))]])
    ∧ coerceValue (cs "10") = PyVal.intv 10 :=
  ⟨(three_part_token_operator (cs "size") (cs "10") (cs "gt")
      (by decide) (by decide)).1,
   (three_part_token_operator (cs "size") (cs "10") (cs "gt")
      (by decide) (by decide)).2.1 10 (by decide)⟩

/-! ## C1: which malformed tokens are rejected

The source splits with item.split(sep, 2) (two splits at most), so a token
with four or more colon-separated segments yields exactly three parts, the
third absorbing the remaining colons, and is accepted; only a token with no
colon at all is rejected. -/

/-- C1 counterexample: the token a:b:c:d has four colon-separated segments,
yet parse_criteria accepts it, treating c:d as the operator. -/
theorem four_segment_token_not_rejected :
    parse_criteria [cs "a:b:c:d"] =
      .ok [[(cs "a", CritVal.opv (cs "$c:d") (PyVal.str (cs "b")))]] := by
  rfl

theorem pySplit_two_or_three (t : List Char) (h : ':' ∈ t) :
    (∃ a b, pySplit ':' 2 t = [a, b] ∧ tokenEntry t = some (a, CritVal.str b)) ∨
    (∃ f v op, pySplit ':' 2 t = [f, v, op] ∧
      tokenEntry t = some (f, CritVal.opv ('$' :: op) (coerceValue v))) := by
  obtain ⟨pre, post, heq⟩ := splitFirst_mem ':' t h
  have hsplit : pySplit ':' 2 t = pre :: pySplit ':' 1 post := by
    rw [show (2 : Nat) = 1 + 1 from rfl]
    simp [pySplit, heq]
  cases h1 : splitFirst (fun c => c = ':') post with
  | none =>
    left
    have hp : pySplit ':' 1 post = [post] := by
      rw [show (1 : Nat) = 0 + 1 from rfl]
      simp [pySplit, h1]
    refine ⟨pre, post, ?_, ?_⟩
    · rw [hsplit, hp]
    · rw [tokenEntry, hsplit, hp]
  | some pq =>
    right
    obtain ⟨p1, p2⟩ := pq
    have hp : pySplit ':' 1 post = [p1, p2] := by
      rw [show (1 : Nat) = 0 + 1 from rfl]
      simp [pySplit, h1]
    refine ⟨pre, p1, p2, ?_, ?_⟩
    · rw [hsplit, hp]
    · rw [tokenEntry, hsplit, hp]

theorem tokenEntry_isSome (t : List Char) (h : ':' ∈ t) :
    ∃ e, tokenEntry t = some e := by
  rcases pySplit_two_or_three t h with ⟨a, b, _, hte⟩ | ⟨f, v, op, _, hte⟩
  · exact ⟨_, hte⟩
  · exact ⟨_, hte⟩

theorem parseCriteriaAux_append (pre : List (List Char)) (h : ∀ t ∈ pre, ':' ∈ t) :
    ∀ acc rest, parseCriteriaAux acc (pre ++ rest) =
      parseCriteriaAux
        ((pre.filterMap tokenEntry).foldl (fun a kv => dictSet a kv.1 kv.2) acc) rest := by
  induction pre with
  | nil => intro acc rest; rfl
  | cons t ts ih =>
    intro acc rest
    have ht : ':' ∈ t := h t (List.mem_cons_self t ts)
    have hts : ∀ u ∈ ts, ':' ∈ u := fun u hu => h u (List.mem_cons_of_mem _ hu)
    rcases pySplit_two_or_three t ht with ⟨a, b, hsp, hte⟩ | ⟨f, v, op, hsp, hte⟩
    · rw [List.cons_append]
      rw [show parseCriteriaAux acc (t :: (ts ++ rest)) =
          parseCriteriaAux (dictSet acc a (.str b)) (ts ++ rest) from by
        simp [parseCriteriaAux, hsp]]
      rw [ih hts]
      simp [List.filterMap_cons, hte]
    · rw [List.cons_append]
      rw [show parseCriteriaAux acc (t :: (ts ++ rest)) =
          parseCriteriaAux (dictSet acc f (.opv ('$' :: op) (coerceValue v))) (ts ++ rest) from by
        simp [parseCriteriaAux, hsp]]
      rw [ih hts]
      simp [List.filterMap_cons, hte]

/-- C1 amended: a token with no colon at all is rejected with an error
identifying the offending token (the tokens before it being well formed),
and the translation produces no criteria mapping; tokens with four or more
colon-separated segments are not rejected. -/
theorem no_colon_token_rejected (pre : List (List Char)) (t : List Char)
    (post : List (List Char)) (hpre : ∀ u ∈ pre, ':' ∈ u) (ht : ':' ∉ t) :
    parse_criteria (pre ++ t :: post) = .error t := by
  unfold parse_criteria
  rw [parseCriteriaAux_append pre hpre]
  simp [parseCriteriaAux, pySplit_no_sep ':' 2 t ht]

/-- Witness for the amended C1: a colon-free token after a well-formed one
is reported as the offending token. -/
theorem no_colon_token_rejected_witness :
    parse_criteria [cs "status:ACTIVE", cs "badtoken"] = .error (cs "badtoken") :=
  no_colon_token_rejected [cs "status:ACTIVE"] (cs "badtoken") [] (by decide) (by decide)

/-! ## Dict lemmas and C7: accumulation with last write wins -/

theorem dictGet_dictSet_self {α : Type} (d : List (List Char × α)) (k : List Char) (v : α) :
    dictGet (dictSet d k v) k = some v := by
  induction d with
  | nil => simp [dictSet, dictGet]
  | cons p rest ih =>
    obtain ⟨k2, v2⟩ := p
    by_cases h : k2 = k
    · simp [dictSet, h, dictGet]
    · simp [dictSet, h, dictGet, ih]

theorem dictGet_dictSet_ne {α : Type} (d : List (List Char × α)) (k k2 : List Char) (v : α)
    (h : k2 ≠ k) : dictGet (dictSet d k v) k2 = dictGet d k2 := by
  induction d with
  | nil => simp [dictSet, dictGet, Ne.symm h]
  | cons p rest ih =>
    obtain ⟨k3, v3⟩ := p
    by_cases h3 : k3 = k
    · subst h3
      simp [dictSet, dictGet, Ne.symm h, h]
    · by_cases h4 : k3 = k2
      · simp [dictSet, dictGet, h3, h4, h]
      · simp [dictSet, dictGet, h3, h4, ih]

theorem dictSet_ne_nil {α : Type} (d : List (List Char × α)) (k : List Char) (v : α) :
    dictSet d k v ≠ [] := by
  cases d with
  | nil => simp [dictSet]
  | cons p rest =>
    obtain ⟨k2, v2⟩ := p
    by_cases h : k2 = k <;> simp [dictSet, h]

theorem dictGet_append {α : Type} (xs ys : List (List Char × α)) (k : List Char) :
    dictGet (xs ++ ys) k =
      match dictGet xs k with
      | some v => some v
      | none => dictGet ys k := by
  induction xs with
  | nil => simp [dictGet]
  | cons p rest ih =>
    obtain ⟨k2, v2⟩ := p
    by_cases h : k2 = k <;> simp [dictGet, h, ih]

theorem foldl_dictSet_ne_nil {α : Type} (ps : List (List Char × α)) :
    ∀ acc, acc ≠ [] → ps.foldl (fun a kv => dictSet a kv.1 kv.2) acc ≠ [] := by
  induction ps with
  | nil => intro acc h; simpa using h
  | cons p rest ih =>
    intro acc _
    rw [List.foldl_cons]
    exact ih _ (dictSet_ne_nil acc p.1 p.2)

theorem dictGet_foldl_dictSet {α : Type} (ps : List (List Char × α)) :
    ∀ (acc : List (List Char × α)) (k : List Char),
      dictGet (ps.foldl (fun a kv => dictSet a kv.1 kv.2) acc) k =
        match lastEntry ps k with
        | some v => some v
        | none => dictGet acc k := by
  induction ps with
  | nil => intro acc k; simp [lastEntry, dictGet]
  | cons p rest ih =>
    intro acc k
    rw [List.foldl_cons, ih]
    unfold lastEntry
    rw [List.reverse_cons, dictGet_append]
    obtain ⟨k2, v2⟩ := p
    cases hr : dictGet rest.reverse k with
    | some v => simp
    | none =>
      by_cases h : k2 = k
      · subst h
        simp [dictGet, dictGet_dictSet_self]
      · simp [dictGet, h, dictGet_dictSet_ne acc k2 k v2 (Ne.symm h)]

/-- C7: well-formed token sequences accumulate into one merged mapping with
last write wins per field, returned as a one-element list, and the empty
token list yields the empty criteria list.  The merged mapping's value at
each field equals the contribution of the last token naming that field. -/
theorem criteria_tokens_accumulate (ts : List (List Char)) (h : ∀ t ∈ ts, ':' ∈ t) :
    (ts = [] → parse_criteria ts = .ok []) ∧
    (ts ≠ [] → ∃ d, parse_criteria ts = .ok [d] ∧ d ≠ [] ∧
      ∀ k, dictGet d k = lastEntry (ts.filterMap tokenEntry) k) := by
  constructor
  · rintro rfl; rfl
  · intro hne
    have happ := parseCriteriaAux_append ts h [] []
    rw [List.append_nil] at happ
    set d := (ts.filterMap tokenEntry).foldl (fun a kv => dictSet a kv.1 kv.2) [] with hd
    have hdne : d ≠ [] := by
      obtain ⟨t, ts2, rfl⟩ := List.exists_cons_of_ne_nil hne
      obtain ⟨e, hte⟩ := tokenEntry_isSome t (h t (List.mem_cons_self t ts2))
      rw [hd, List.filterMap_cons, hte, List.foldl_cons]
      exact foldl_dictSet_ne_nil _ _ (dictSet_ne_nil [] e.1 e.2)
    refine ⟨d, ?_, hdne, ?_⟩
    · unfold parse_criteria
      rw [happ]
      simp [parseCriteriaAux, List.isEmpty_iff, hdne]
    · intro k
      rw [hd, dictGet_foldl_dictSet]
      cases hle : lastEntry (ts.filterMap tokenEntry) k <;> simp [dictGet]

/-- Witness for C7: three tokens, the first two naming the same field; the
later operator token overwrites the earlier equality token. -/
theorem criteria_tokens_accumulate_witness :
    ([cs "a:1", cs "a:2:gt", cs "b:x"] ≠ ([] : List (List Char))) ∧
    (∃ d, parse_criteria [cs "a:1", cs "a:2:gt", cs "b:x"] = .ok [d] ∧ d ≠ [] ∧
      ∀ k, dictGet d k = lastEntry ([cs "a:1", cs "a:2:gt", cs "b:x"].filterMap tokenEntry) k) :=
  ⟨by decide,
   (criteria_tokens_accumulate [cs "a:1", cs "a:2:gt", cs "b:x"] (by decide)).2 (by decide)⟩

/-! ## C2 and C4: update_metadata_fields -/

theorem dictGet_pyDictUpdate_notin {α : Type} (u : List (List Char × α)) :
    ∀ (d : List (List Char × α)) (k : List Char), dictGet u k = none →
      dictGet (pyDictUpdate d u) k = dictGet d k := by
  induction u with
  | nil => intro d k _; rfl
  | cons p rest ih =>
    intro d k h
    obtain ⟨k2, v2⟩ := p
    have hk2 : ¬k2 = k := by
      intro he
      simp [dictGet, he] at h
    have hrest : dictGet rest k = none := by
      simpa [dictGet, hk2] using h
    unfold pyDictUpdate at ih ⊢
    rw [List.foldl_cons]
    rw [ih (dictSet d k2 v2) k hrest,
      dictGet_dictSet_ne d k2 k v2 (fun he => hk2 he.symm)]

/-- C2 counterexample: a fetched entry carrying a field updated_at (one of
the 48 schema fields) with value old, updated with an empty payload, is
written back with updated_at replaced by the fresh timestamp: a pre-existing
field not named in the update payload does not keep its fetched value. -/
theorem update_preserves_counterexample :
    (update_metadata_fields (fun s => s) (fun s => s) (cs "m1")
        (RespData.list [[(cs "updated_at", cs "old"), (cs "name", cs "n")]])
        [] (cs "T1") (Except.ok ())).result
      = .ok [(cs "updated_at", cs "T1"), (cs "name", cs "n")]
    ∧ dictGet [(cs "updated_at", cs "old"), (cs "name", cs "n")] (cs "updated_at")
      = some (cs "old")
    ∧ dictGet [(cs "updated_at", cs "T1"), (cs "name", cs "n")] (cs "updated_at")
      = some (cs "T1")
    ∧ cs "T1" ≠ cs "old" :=
  ⟨rfl, rfl, rfl, by decide⟩

/-- C2 amended: the written-back document preserves every pre-existing field
not named in the update payload other than updated_at, which is always
restamped with the fresh timestamp. -/
theorem update_metadata_preserves_fields {α : Type} (ofStr : List Char → α)
    (strOf : α → List Char) (metadata_id : List Char) (fetched : RespData α)
    (updates : List (List Char × α)) (now : List Char)
    (sqlOutcome : Except (List Char) Unit)
    (doc : List (List Char × α)) (tail : List (List (List Char × α)))
    (hfetch : normEntries fetched = doc :: tail) (hne : doc.isEmpty = false)
    (k : List Char) (hku : dictGet updates k = none) (hts : k ≠ cs "updated_at") :
    ∃ d, (update_metadata_fields ofStr strOf metadata_id fetched updates now
        sqlOutcome).result = .ok d
      ∧ (update_metadata_fields ofStr strOf metadata_id fetched updates now
        sqlOutcome).primaryPut = some d
      ∧ dictGet d k = dictGet doc k := by
  unfold update_metadata_fields
  rw [hfetch]
  simp only [hne, Bool.false_eq_true, if_false]
  cases sqlOutcome with
  | ok u =>
    refine ⟨_, rfl, rfl, ?_⟩
    rw [dictGet_dictSet_ne _ _ _ _ hts, dictGet_pyDictUpdate_notin updates doc k hku]
  | error e =>
    refine ⟨_, rfl, rfl, ?_⟩
    rw [dictGet_dictSet_ne _ _ _ _ hts, dictGet_pyDictUpdate_notin updates doc k hku]

/-- Witness for the amended C2: the field author, absent from the update
payload, keeps its fetched value bob. -/
theorem update_metadata_preserves_fields_witness :
    ∃ d, (update_metadata_fields (fun s => s) (fun s => s) (cs "m1")
        (RespData.list [[(cs "name", cs "old"), (cs "author", cs "bob")]])
        [(cs "name", cs "new")] (cs "T1") (Except.ok ())).result = .ok d
      ∧ (update_metadata_fields (fun s => s) (fun s => s) (cs "m1")
        (RespData.list [[(cs "name", cs "old"), (cs "author", cs "bob")]])
        [(cs "name", cs "new")] (cs "T1") (Except.ok ())).primaryPut = some d
      ∧ dictGet d (cs "author")
        = dictGet [(cs "name", cs "old"), (cs "author", cs "bob")] (cs "author") :=
  update_metadata_preserves_fields (fun s => s) (fun s => s) (cs "m1")
    (RespData.list [[(cs "name", cs "old"), (cs "author", cs "bob")]])
    [(cs "name", cs "new")] (cs "T1") (Except.ok ())
    [(cs "name", cs "old"), (cs "author", cs "bob")] [] rfl rfl
    (cs "author") (by decide) (by decide)

/-- C4: when the secondary-store write fails with any error after the fetch
succeeded, the error is caught: the outcome's returned value and primary
write are identical to those of a successful mirror write, the operation
still returns the merged document, and that document is exactly what was
written to the primary store. -/
theorem update_sql_failure_swallowed {α : Type} (ofStr : List Char → α)
    (strOf : α → List Char) (metadata_id : List Char) (fetched : RespData α)
    (updates : List (List Char × α)) (now : List Char)
    (doc : List (List Char × α)) (tail : List (List (List Char × α)))
    (hfetch : normEntries fetched = doc :: tail) (hne : doc.isEmpty = false)
    (e : List Char) :
    ((update_metadata_fields ofStr strOf metadata_id fetched updates now
        (.error e)).result
      = (update_metadata_fields ofStr strOf metadata_id fetched updates now
        (.ok ())).result)
    ∧ ((update_metadata_fields ofStr strOf metadata_id fetched updates now
        (.error e)).primaryPut
      = (update_metadata_fields ofStr strOf metadata_id fetched updates now
        (.ok ())).primaryPut)
    ∧ (∃ d, (update_metadata_fields ofStr strOf metadata_id fetched updates now
          (.error e)).result = .ok d
        ∧ (update_metadata_fields ofStr strOf metadata_id fetched updates now
          (.error e)).primaryPut = some d) := by
  unfold update_metadata_fields
  rw [hfetch]
  simp only [hne, Bool.false_eq_true, if_false]
  exact ⟨trivial, trivial, _, rfl, rfl⟩

/-- Witness for C4: with a failing mirror write the outcome still returns
the merged document. -/
theorem update_sql_failure_swallowed_witness :
    ((update_metadata_fields (fun s => s) (fun s => s) (cs "m1")
        (RespData.list [[(cs "name", cs "old")]])
        [(cs "name", cs "new")] (cs "T1") (.error (cs "boom"))).result
      = (update_metadata_fields (fun s => s) (fun s => s) (cs "m1")
        (RespData.list [[(cs "name", cs "old")]])
        [(cs "name", cs "new")] (cs "T1") (.ok ())).result)
    ∧ ((update_metadata_fields (fun s => s) (fun s => s) (cs "m1")
        (RespData.list [[(cs "name", cs "old")]])
        [(cs "name", cs "new")] (cs "T1") (.error (cs "boom"))).primaryPut
      = (update_metadata_fields (fun s => s) (fun s => s) (cs "m1")
        (RespData.list [[(cs "name", cs "old")]])
        [(cs "name", cs "new")] (cs "T1") (.ok ())).primaryPut)
    ∧ (∃ d, (update_metadata_fields (fun s => s) (fun s => s) (cs "m1")
          (RespData.list [[(cs "name", cs "old")]])
          [(cs "name", cs "new")] (cs "T1") (.error (cs "boom"))).result = .ok d
        ∧ (update_metadata_fields (fun s => s) (fun s => s) (cs "m1")
          (RespData.list [[(cs "name", cs "old")]])
          [(cs "name", cs "new")] (cs "T1") (.error (cs "boom"))).primaryPut = some d) :=
  update_sql_failure_swallowed (fun s => s) (fun s => s) (cs "m1")
    (RespData.list [[(cs "name", cs "old")]])
    [(cs "name", cs "new")] (cs "T1") [(cs "name", cs "old")] [] rfl rfl (cs "boom")

/-! ## C3: wait_for_metadata polling -/

theorem waitLoop_skip_failed {α T : Type} [LinearOrder T]
    (elapsedAt : Nat → T) (polls : Nat → RespData α) (timeout : T) :
    ∀ (n i fuel : Nat),
      (∀ j, i ≤ j → j < i + n → elapsedAt j < timeout ∧ pollFound (polls j) = none) →
      n < fuel →
      waitLoop elapsedAt polls timeout fuel i
        = waitLoop elapsedAt polls timeout (fuel - n) (i + n) := by
  intro n
  induction n with
  | zero => intro i fuel _ _; simp
  | succ n ih =>
    intro i fuel h hf
    obtain ⟨f, rfl⟩ : ∃ f, fuel = f + 1 := ⟨fuel - 1, by omega⟩
    have hi := h i (le_refl i) (by omega)
    rw [show waitLoop elapsedAt polls timeout (f + 1) i
        = waitLoop elapsedAt polls timeout f (i + 1) from by
      simp [waitLoop, hi.1, hi.2]]
    rw [ih (i + 1) f (fun j hj1 hj2 => h j (by omega) (by omega)) (by omega)]
    have e1 : f - n = f + 1 - (n + 1) := by omega
    have e2 : i + 1 + n = i + (n + 1) := by omega
    rw [e1, e2]

/-- C3: as long as every earlier poll happened within the timeout and came
back empty, a non-empty poll within the timeout makes wait_for_metadata
return its first entry at once, with exactly one sleep per earlier failed
poll and none after the successful one; and when instead the elapsed time
at the next check has reached the timeout, it returns None as a normal
value rather than raising. -/
theorem wait_for_metadata_spec {α T : Type} [LinearOrder T]
    (elapsedAt : Nat → T) (polls : Nat → RespData α) (timeout : T)
    (fuel k : Nat)
    (hk : ∀ j, j < k → elapsedAt j < timeout ∧ pollFound (polls j) = none)
    (hfuel : k < fuel) :
    (∀ e, elapsedAt k < timeout → pollFound (polls k) = some e →
      wait_for_metadata elapsedAt polls timeout fuel = some (some e, k))
    ∧ (¬elapsedAt k < timeout →
      wait_for_metadata elapsedAt polls timeout fuel = some (none, k)) := by
  have hskip := waitLoop_skip_failed elapsedAt polls timeout k 0 fuel
    (fun j _ hj2 => hk j (by omega)) hfuel
  rw [Nat.zero_add] at hskip
  obtain ⟨m, hm⟩ : ∃ m, fuel - k = m + 1 := ⟨fuel - k - 1, by omega⟩
  constructor
  · intro e hlt hpoll
    unfold wait_for_metadata
    rw [hskip, hm]
    simp [waitLoop, hlt, hpoll]
  · intro hge
    unfold wait_for_metadata
    rw [hskip, hm]
    simp [waitLoop, hge]

/-- Witness for C3: polls 0 and 1 are empty, poll 2 (at elapsed time 2,
within the timeout 3) finds an entry; the loop returns it having slept
exactly twice. -/
theorem wait_for_metadata_spec_witness :
    wait_for_metadata (fun j => (j : Int))
      (fun j => if j = 2 then RespData.list [[(cs "_id", cs "m1")]]
        else RespData.list ([] : List (List (List Char × List Char))))
      3 5 = some (some [(cs "_id", cs "m1")], 2) :=
  (wait_for_metadata_spec (fun j => (j : Int))
    (fun j => if j = 2 then RespData.list [[(cs "_id", cs "m1")]]
      else RespData.list ([] : List (List (List Char × List Char))))
    3 5 2 (by decide) (by decide)).1
    [(cs "_id", cs "m1")] (by decide) (by decide)

/-! ## C8: import_from_json batching -/

theorem pyRangeStep_100_length (stop : Nat) :
    ∀ start, (pyRangeStep stop 100 start).length = (stop - start + 99) / 100 := by
  have H : ∀ n start, stop - start ≤ n →
      (pyRangeStep stop 100 start).length = (stop - start + 99) / 100 := by
    intro n
    induction n with
    | zero =>
      intro start h
      rw [pyRangeStep, dif_neg (by omega : ¬(start < stop ∧ 0 < 100))]
      simp only [List.length_nil]
      omega
    | succ n ih =>
      intro start h
      by_cases hlt : start < stop
      · rw [pyRangeStep, dif_pos ⟨hlt, by omega⟩, List.length_cons,
          ih (start + 100) (by omega)]
        omega
      · rw [pyRangeStep, dif_neg (by omega : ¬(start < stop ∧ 0 < 100))]
        simp only [List.length_nil]
        omega
  intro start
  exact H (stop - start) start (le_refl _)

theorem slices_flatten {β : Type} (docs : List β) :
    ∀ start, (((pyRangeStep docs.length 100 start).map
      (fun i => pySlice docs i 100)).flatten) = docs.drop start := by
  have H : ∀ n start, docs.length - start ≤ n →
      (((pyRangeStep docs.length 100 start).map
        (fun i => pySlice docs i 100)).flatten) = docs.drop start := by
    intro n
    induction n with
    | zero =>
      intro start h
      rw [pyRangeStep, dif_neg (by omega : ¬(start < docs.length ∧ 0 < 100))]
      simp only [List.map_nil, List.flatten_nil]
      exact (List.drop_eq_nil_of_le (by omega)).symm
    | succ n ih =>
      intro start h
      by_cases hlt : start < docs.length
      · rw [pyRangeStep, dif_pos ⟨hlt, by omega⟩, List.map_cons, List.flatten_cons,
          ih (start + 100) (by omega)]
        unfold pySlice
        rw [show docs.drop (start + 100) = (docs.drop start).drop 100 from by
          rw [List.drop_drop]]
        exact List.take_append_drop 100 (docs.drop start)
      · rw [pyRangeStep, dif_neg (by omega : ¬(start < docs.length ∧ 0 < 100))]
        simp only [List.map_nil, List.flatten_nil]
        exact (List.drop_eq_nil_of_le (by omega)).symm
  intro start
  exact H (docs.length - start) start (le_refl _)

theorem importLoop_length {β E R : Type} (docs : List β) (create : List β → Except E R) :
    ∀ r : List Nat, (importLoop docs create r).length = r.length := by
  intro r
  induction r with
  | nil => rfl
  | cons i rest ih => simp [importLoop, ih]

theorem importLoop_map_fst {β E R : Type} (docs : List β) (create : List β → Except E R) :
    ∀ r : List Nat, (importLoop docs create r).map Prod.fst
      = r.map (fun i => pySlice docs i 100) := by
  intro r
  induction r with
  | nil => rfl
  | cons i rest ih => simp [importLoop, ih]

theorem importLoop_calls {β E R : Type} (docs : List β) (create : List β → Except E R) :
    ∀ (r : List Nat) (p : List β × Except E R),
      p ∈ importLoop docs create r → p.2 = create p.1 := by
  intro r
  induction r with
  | nil => intro p hp; cases hp
  | cons i rest ih =>
    intro p hp
    rcases List.mem_cons.mp hp with h | h
    · subst h; rfl
    · exact ih p h

/-- C8: batch import of N documents issues exactly ceil(N over 100) create
calls, the attempted pages concatenate back to the document list in order,
the pages attempted do not depend on the outcomes of the create calls (a
failing page never prevents later pages), and every attempted page is passed
to create. -/
theorem import_batches_spec {β E R : Type} (docs : List β)
    (create create2 : List β → Except E R) :
    (import_from_json docs create).length = (docs.length + 99) / 100
    ∧ ((import_from_json docs create).map Prod.fst).flatten = docs
    ∧ ((import_from_json docs create).map Prod.fst
      = (import_from_json docs create2).map Prod.fst)
    ∧ (∀ p ∈ import_from_json docs create, p.2 = create p.1) := by
  refine ⟨?_, ?_, ?_, ?_⟩
  · unfold import_from_json
    rw [importLoop_length, pyRangeStep_100_length]
    omega
  · unfold import_from_json
    rw [importLoop_map_fst]
    simpa using slices_flatten docs 0
  · unfold import_from_json
    rw [importLoop_map_fst, importLoop_map_fst]
  · intro p hp
    exact importLoop_calls docs create _ p hp

/-! ## C9: verify_48_columns -/

/-- C9: the report is ok exactly when every one of the 48 expected column
names occurs in the actual list, and the present and missing lists partition
the reference list: both are sublists of it (reference order preserved),
every expected name lands in exactly one of them, present names occur in the
actual list and missing names do not. -/
theorem verify_48_columns_spec (actual : List (List Char)) :
    ((verify_48_columns actual).ok = true ↔ ∀ c ∈ expected48, c ∈ actual)
    ∧ (verify_48_columns actual).present.Sublist expected48
    ∧ (verify_48_columns actual).missing.Sublist expected48
    ∧ (∀ c ∈ expected48,
      (c ∈ (verify_48_columns actual).present ∧ c ∉ (verify_48_columns actual).missing)
      ∨ (c ∈ (verify_48_columns actual).missing ∧ c ∉ (verify_48_columns actual).present))
    ∧ (∀ c ∈ (verify_48_columns actual).present, c ∈ expected48 ∧ c ∈ actual)
    ∧ (∀ c ∈ (verify_48_columns actual).missing, c ∈ expected48 ∧ c ∉ actual) := by
  unfold verify_48_columns
  refine ⟨?_, List.filter_sublist _, List.filter_sublist _, ?_, ?_, ?_⟩
  · simp [List.length_eq_zero, List.filter_eq_nil_iff]
  · intro c hc
    by_cases hin : c ∈ actual
    · exact Or.inl ⟨List.mem_filter.mpr ⟨hc, by simpa using hin⟩,
        fun hmem => by simpa [hin] using (List.mem_filter.mp hmem).2⟩
    · exact Or.inr ⟨List.mem_filter.mpr ⟨hc, by simpa using hin⟩,
        fun hmem => by simpa [hin] using (List.mem_filter.mp hmem).2⟩
  · intro c hc
    have h := List.mem_filter.mp hc
    exact ⟨h.1, by simpa using h.2⟩
  · intro c hc
    have h := List.mem_filter.mp hc
    exact ⟨h.1, by simpa using h.2⟩

/-! ## C10: delete_all refines delete with the match-everything criterion -/

/-- C10: delete_all on a datastore is exactly delete with the single
match-everything regex criterion on that datastore: the requests are equal,
hence any response function yields the same result. -/
theorem delete_all_eq_delete_regex {R : Type} (dstype : List Char)
    (respond : DeleteRequest → R) :
    delete_all dstype
      = delete [[(cs "_id", CritVal.opv (cs "$regex") (PyVal.str (cs ".*")))]] dstype
    ∧ respond (delete_all dstype)
      = respond (delete [[(cs "_id", CritVal.opv (cs "$regex") (PyVal.str (cs ".*")))]]
        dstype) :=
  ⟨rfl, rfl⟩

/-- Witness for C8: 250 documents yield exactly 3 create calls. -/
theorem import_batches_spec_witness :
    (import_from_json (List.range 250)
      (fun b => (Except.ok b.length : Except Unit Nat))).length = 3 := by
  have h := (import_batches_spec (List.range 250)
    (fun b => (Except.ok b.length : Except Unit Nat))
    (fun b => (Except.ok b.length : Except Unit Nat))).1
  rw [List.length_range] at h
  exact h.trans (by norm_num)

/-- Witness for C9: when the actual column list is the reference list
itself, the report is ok. -/
theorem verify_48_columns_spec_witness :
    (verify_48_columns expected48).ok = true :=
  ((verify_48_columns_spec expected48).1).mpr (fun _ hc => hc)

/-- Witness for C10 at the default datastore. -/
theorem delete_all_eq_delete_regex_witness :
    delete_all (cs "dsswres")
      = delete [[(cs "_id", CritVal.opv (cs "$regex") (PyVal.str (cs ".*")))]]
        (cs "dsswres") :=
  (delete_all_eq_delete_regex (cs "dsswres") (fun r => r)).1

end OptimusPy
